import Mathlib

/-!
Shallow embedding of `src/platform/minilogue-xd/proj/modfx/twopole_lowpass/twopole_lowpass.cpp`,
a two-pole low-pass mod-fx plugin built on the SDK biquad filter. C `float`
arithmetic is modelled exactly over `ℝ`; the interleaved sample buffers are
modelled as streams `ℕ → ℝ`, and a processing call returns the list of samples
it writes. The biquad internals (`dsp::BiQuad` from `biquad.hpp`) and the SDK
math helpers are not under src/ and are modelled from the spec, as marked on
each definition.
-/

namespace TwopoleLowpass

open Real

/-- Modelled from the spec: `fx_tanpif` (SDK math helper, not under src/) computes
the tangent of π times its argument, the bilinear-transform prewarping of a
normalized cutoff (spec §4.1). -/
noncomputable def fx_tanpif (x : ℝ) : ℝ := Real.tan (Real.pi * x)

/-- Modelled from the spec: `fasterpow2f` (SDK math helper, not under src/) is the
base-2 exponential `2^x` used by both exponential control mappings (spec §4.3). -/
noncomputable def fasterpow2f (x : ℝ) : ℝ := (2 : ℝ) ^ x

/-- Modelled from the spec: `q31_to_f32` (SDK helper, not under src/) decodes a
fixed-point control value into a float in the normalized unit interval
(spec §6: "a fixed-point value in a normalized unit interval"); a Q31 value `v`
decodes to `v / 2^31`. -/
noncomputable def q31_to_f32 (v : ℤ) : ℝ := (v : ℝ) / 2 ^ 31

/-- Modelled from the spec: the C math constant `M_1_SQRT2`, the exact value
`1/√2` ("the `1/sqrt(2)` is the Butterworth/no-resonance baseline Q", spec §4.3). -/
noncomputable def M_1_SQRT2 : ℝ := 1 / Real.sqrt 2

/-- The five biquad coefficients: three feed-forward gains and two feedback
gains, as in the transfer-function comment at the top of `twopole_lowpass.cpp`. -/
structure Coeffs where
  f0 : ℝ
  f1 : ℝ
  f2 : ℝ
  b1 : ℝ
  b2 : ℝ

/-- Modelled from the spec: `dsp::BiQuad::Coeffs::setSOLP` (`biquad.hpp`, not under
src/) is the pure Coefficient Model of spec §4.1: it maps the prewarped cutoff
`k = tan(π·wc)` and the quality `q` to the standard bilinear-transform
second-order low-pass coefficient set. -/
noncomputable def setSOLP (k q : ℝ) : Coeffs :=
  let kkq : ℝ := k * k * q
  let d : ℝ := kkq + k + q
  { f0 := kkq / d
    f1 := 2 * kkq / d
    f2 := kkq / d
    b1 := 2 * q * (k * k - 1) / d
    b2 := (kkq - k + q) / d }

/-- A filter instance: a coefficient set plus the two delay registers, mirroring
`dsp::BiQuad` (field `mCoeffs` and registers `Z1`, `Z2`). -/
structure BiQuad where
  mCoeffs : Coeffs
  z1 : ℝ
  z2 : ℝ

/-- Modelled from the spec: `dsp::BiQuad::flush` (`biquad.hpp`, not under src/)
zeroes the delay registers without touching the coefficients (spec §4.2 `reset()`). -/
def BiQuad.flush (bq : BiQuad) : BiQuad := { bq with z1 := 0, z2 := 0 }

/-- Modelled from the spec: `dsp::BiQuad::process_so` (`biquad.hpp`, not under
src/), matching the Direct Transposed Form 2 recurrence in the comment of
`twopole_lowpass.cpp` lines 24-27:
`acc := f0*x + Z1; Z1 := f1*x + Z2 - b1*acc; Z2 := f2*x - b2*acc; y := acc`.
Returns the output sample together with the updated instance. -/
def BiQuad.process_so (bq : BiQuad) (x : ℝ) : ℝ × BiQuad :=
  let acc : ℝ := bq.mCoeffs.f0 * x + bq.z1
  (acc,
    { bq with
      z1 := bq.mCoeffs.f1 * x + bq.z2 - bq.mCoeffs.b1 * acc
      z2 := bq.mCoeffs.f2 * x - bq.mCoeffs.b2 * acc })

/-- The file-scope mutable state of `twopole_lowpass.cpp`: the four filter
instances (main left/right, sub left/right), the dirty flag `s_param_changed`,
and the stored control parameters `s_wc` (normalized cutoff) and `s_q`. -/
structure EffectState where
  s_bq_l : BiQuad
  s_bq_r : BiQuad
  s_bqs_l : BiQuad
  s_bqs_r : BiQuad
  s_param_changed : ℤ
  s_wc : ℝ
  s_q : ℝ

/-- The reciprocal sample rate constant `s_fs_recip = 1/48000`. -/
noncomputable def s_fs_recip : ℝ := 1 / 48000

/-- `MODFX_INIT`: clears the dirty flag, sets the default parameters
`s_wc = 0.49`, `s_q = 1.4142`, flushes all four instances and assigns the one
freshly computed coefficient set to all four. -/
noncomputable def MODFX_INIT (s : EffectState) : EffectState :=
  let c : Coeffs := setSOLP (fx_tanpif 0.49) 1.4142
  { s with
    s_param_changed := 0
    s_wc := 0.49
    s_q := 1.4142
    s_bq_l := ⟨c, 0, 0⟩
    s_bq_r := ⟨c, 0, 0⟩
    s_bqs_l := ⟨c, 0, 0⟩
    s_bqs_r := ⟨c, 0, 0⟩ }

/-- The guarded coefficient-update block at the head of `MODFX_PROCESS`
(lines 72-80): if the dirty flag is set, recompute the coefficients once from
the stored parameters, assign the identical result to all four instances and
clear the flag; otherwise do nothing. -/
noncomputable def updateCoeffs (s : EffectState) : EffectState :=
  if s.s_param_changed ≠ 0 then
    let c : Coeffs := setSOLP (fx_tanpif s.s_wc) s.s_q
    { s with
      s_bq_l := { s.s_bq_l with mCoeffs := c }
      s_bq_r := { s.s_bq_r with mCoeffs := c }
      s_bqs_l := { s.s_bqs_l with mCoeffs := c }
      s_bqs_r := { s.s_bqs_r with mCoeffs := c }
      s_param_changed := 0 }
  else s

/-- The sample loop of `MODFX_PROCESS` (lines 82-87): per frame it pulls two
interleaved samples from each input stream, runs them through the four
instances in order (main L, main R, sub L, sub R), and appends the outputs to
the two interleaved output lists. -/
def runFrames (l r sl sr : BiQuad) (mx sx : ℕ → ℝ) :
    ℕ → List ℝ × List ℝ × BiQuad × BiQuad × BiQuad × BiQuad
  | 0 => ([], [], l, r, sl, sr)
  | n + 1 =>
    let pl := l.process_so (mx 0)
    let pr := r.process_so (mx 1)
    let psl := sl.process_so (sx 0)
    let psr := sr.process_so (sx 1)
    let rest := runFrames pl.2 pr.2 psl.2 psr.2
      (fun i => mx (i + 2)) (fun i => sx (i + 2)) n
    (pl.1 :: pr.1 :: rest.1, psl.1 :: psr.1 :: rest.2.1, rest.2.2)

/-- `MODFX_PROCESS`: consumes the dirty flag (the `param_changed` block) before
any sample, then processes `frames` interleaved stereo pairs from each of the
two input streams, returning the main output list, the sub output list and the
final state. -/
noncomputable def MODFX_PROCESS (s : EffectState) (main_xn sub_xn : ℕ → ℝ)
    (frames : ℕ) : List ℝ × List ℝ × EffectState :=
  let s1 := updateCoeffs s
  let res := runFrames s1.s_bq_l s1.s_bq_r s1.s_bqs_l s1.s_bqs_r main_xn sub_xn frames
  (res.1, res.2.1,
    { s1 with
      s_bq_l := res.2.2.1
      s_bq_r := res.2.2.2.1
      s_bqs_l := res.2.2.2.2.1
      s_bqs_r := res.2.2.2.2.2 })

/-- Modelled from the spec: the header constant `k_user_modfx_param_time`
(`usermodfx.h`, not under src/), the index of the cutoff (time) control; the
spec only requires it to be distinct from the depth index. -/
def k_user_modfx_param_time : ℕ := 0

/-- Modelled from the spec: the header constant `k_user_modfx_param_depth`
(`usermodfx.h`, not under src/), the index of the resonance (depth) control. -/
def k_user_modfx_param_depth : ℕ := 1

/-- The cutoff (time) control mapping of `MODFX_PARAM`:
`s_wc = 0.001 * 2^(valf * 8.9456)`, the normalized cutoff frequency (cutoff/Fs). -/
noncomputable def timeToWc (valf : ℝ) : ℝ := 0.001 * fasterpow2f (valf * 8.9456)

/-- The resonance (depth) control mapping of `MODFX_PARAM`:
`s_q = 2^(valf * 4) * (1/√2)`. -/
noncomputable def depthToQ (valf : ℝ) : ℝ := fasterpow2f (valf * 4.0) * M_1_SQRT2

/-- `MODFX_PARAM`: decodes the Q31 control value, then dispatches on the
parameter index: the time index stores a new normalized cutoff and sets the
dirty flag, the depth index stores a new resonance `q` and sets the dirty
flag, and any other index falls through to `default:` leaving the state
unchanged. -/
noncomputable def MODFX_PARAM (s : EffectState) (index : ℕ) (value : ℤ) :
    EffectState :=
  let valf := q31_to_f32 value
  if index = k_user_modfx_param_time then
    { s with s_wc := timeToWc valf, s_param_changed := 1 }
  else if index = k_user_modfx_param_depth then
    { s with s_q := depthToQ valf, s_param_changed := 1 }
  else s

/-- Spec-side definition (§6 "Block-processing call"): run one filter instance
over a list of samples in order, returning the outputs in order and the final
instance. Used to state that each channel of `MODFX_PROCESS` is exactly a
sequential pass of its instance over its channel's samples. -/
def runChannel (bq : BiQuad) : List ℝ → List ℝ × BiQuad
  | [] => ([], bq)
  | x :: xs =>
    let p := bq.process_so x
    let rest := runChannel p.2 xs
    (p.1 :: rest.1, rest.2)

/-- Spec-side definition: the even-indexed (left-channel) samples of an
interleaved stereo stream, for a given frame count. -/
def evensOf (f : ℕ → ℝ) : ℕ → List ℝ
  | 0 => []
  | n + 1 => f 0 :: evensOf (fun i => f (i + 2)) n

/-- Spec-side definition: the odd-indexed (right-channel) samples of an
interleaved stereo stream, for a given frame count. -/
def oddsOf (f : ℕ → ℝ) : ℕ → List ℝ
  | 0 => []
  | n + 1 => f 1 :: oddsOf (fun i => f (i + 2)) n

/-- Spec-side definition: interleave two equal-length channel lists back into
one stereo list (left sample first in each pair). -/
def interleave : List ℝ → List ℝ → List ℝ
  | x :: xs, y :: ys => x :: y :: interleave xs ys
  | _, _ => []

/-- A concrete effect state with the dirty flag set, used to instantiate
universally quantified theorems at an explicit input. -/
def dirtyState : EffectState :=
  ⟨⟨⟨0, 0, 0, 0, 0⟩, 0, 0⟩, ⟨⟨0, 0, 0, 0, 0⟩, 0, 0⟩,
   ⟨⟨0, 0, 0, 0, 0⟩, 0, 0⟩, ⟨⟨0, 0, 0, 0, 0⟩, 0, 0⟩, 1, 0, 1⟩

/-! ### Structural lemmas -/

lemma process_so_mCoeffs (bq : BiQuad) (x : ℝ) :
    (bq.process_so x).2.mCoeffs = bq.mCoeffs := rfl

lemma runChannel_mCoeffs (bq : BiQuad) (xs : List ℝ) :
    (runChannel bq xs).2.mCoeffs = bq.mCoeffs := by
  induction xs generalizing bq with
  | nil => rfl
  | cons x xs ih => simpa [runChannel] using ih (bq.process_so x).2

lemma runChannel_length (bq : BiQuad) (xs : List ℝ) :
    (runChannel bq xs).1.length = xs.length := by
  induction xs generalizing bq with
  | nil => rfl
  | cons x xs ih => simpa [runChannel] using ih (bq.process_so x).2

lemma evensOf_length (f : ℕ → ℝ) (n : ℕ) : (evensOf f n).length = n := by
  induction n generalizing f with
  | zero => rfl
  | succ n ih => simpa [evensOf] using ih _

lemma oddsOf_length (f : ℕ → ℝ) (n : ℕ) : (oddsOf f n).length = n := by
  induction n generalizing f with
  | zero => rfl
  | succ n ih => simpa [oddsOf] using ih _

lemma interleave_length (as bs : List ℝ) (h : as.length = bs.length) :
    (interleave as bs).length = as.length + bs.length := by
  induction as generalizing bs with
  | nil => cases bs <;> simp [interleave] at h ⊢
  | cons a as ih =>
    cases bs with
    | nil => simp at h
    | cons b bs =>
      simp only [List.length_cons] at h
      have := ih bs (by omega)
      simp [interleave, this]
      omega

/-- The sample loop decomposes channel-wise: it is the interleaving of one
sequential `runChannel` pass per instance over that instance's samples. -/
lemma runFrames_eq (n : ℕ) : ∀ (l r sl sr : BiQuad) (mx sx : ℕ → ℝ),
    runFrames l r sl sr mx sx n =
      (interleave (runChannel l (evensOf mx n)).1 (runChannel r (oddsOf mx n)).1,
       interleave (runChannel sl (evensOf sx n)).1 (runChannel sr (oddsOf sx n)).1,
       (runChannel l (evensOf mx n)).2,
       (runChannel r (oddsOf mx n)).2,
       (runChannel sl (evensOf sx n)).2,
       (runChannel sr (oddsOf sx n)).2) := by
  induction n with
  | zero => intro l r sl sr mx sx; rfl
  | succ n ih =>
    intro l r sl sr mx sx
    simp only [runFrames, evensOf, oddsOf, runChannel, interleave,
      ih (l.process_so (mx 0)).2 (r.process_so (mx 1)).2
        (sl.process_so (sx 0)).2 (sr.process_so (sx 1)).2
        (fun i => mx (i + 2)) (fun i => sx (i + 2))]

lemma updateCoeffs_registers (s : EffectState) :
    (updateCoeffs s).s_bq_l.z1 = s.s_bq_l.z1 ∧
    (updateCoeffs s).s_bq_l.z2 = s.s_bq_l.z2 ∧
    (updateCoeffs s).s_bq_r.z1 = s.s_bq_r.z1 ∧
    (updateCoeffs s).s_bq_r.z2 = s.s_bq_r.z2 ∧
    (updateCoeffs s).s_bqs_l.z1 = s.s_bqs_l.z1 ∧
    (updateCoeffs s).s_bqs_l.z2 = s.s_bqs_l.z2 ∧
    (updateCoeffs s).s_bqs_r.z1 = s.s_bqs_r.z1 ∧
    (updateCoeffs s).s_bqs_r.z2 = s.s_bqs_r.z2 := by
  unfold updateCoeffs
  split <;> simp

lemma updateCoeffs_dirty (s : EffectState) (h : s.s_param_changed ≠ 0) :
    (updateCoeffs s).s_bq_l.mCoeffs = setSOLP (fx_tanpif s.s_wc) s.s_q ∧
    (updateCoeffs s).s_bq_r.mCoeffs = setSOLP (fx_tanpif s.s_wc) s.s_q ∧
    (updateCoeffs s).s_bqs_l.mCoeffs = setSOLP (fx_tanpif s.s_wc) s.s_q ∧
    (updateCoeffs s).s_bqs_r.mCoeffs = setSOLP (fx_tanpif s.s_wc) s.s_q ∧
    (updateCoeffs s).s_param_changed = 0 := by
  unfold updateCoeffs
  simp [h]

lemma MODFX_PROCESS_state (s : EffectState) (mx sx : ℕ → ℝ) (n : ℕ) :
    (MODFX_PROCESS s mx sx n).2.2.s_bq_l =
        (runChannel (updateCoeffs s).s_bq_l (evensOf mx n)).2 ∧
    (MODFX_PROCESS s mx sx n).2.2.s_bq_r =
        (runChannel (updateCoeffs s).s_bq_r (oddsOf mx n)).2 ∧
    (MODFX_PROCESS s mx sx n).2.2.s_bqs_l =
        (runChannel (updateCoeffs s).s_bqs_l (evensOf sx n)).2 ∧
    (MODFX_PROCESS s mx sx n).2.2.s_bqs_r =
        (runChannel (updateCoeffs s).s_bqs_r (oddsOf sx n)).2 := by
  simp [runFrames_eq, MODFX_PROCESS]

/-! ### Numeric lemmas for the exponential control mappings -/

lemma two_rpow_div_lt (p q : ℕ) (b : ℝ) (hb : 0 < b) (hq : q ≠ 0)
    (h : (2 : ℝ) ^ p < b ^ q) : (2 : ℝ) ^ ((p : ℝ) / q) < b := by
  have hx : (0 : ℝ) ≤ (2 : ℝ) ^ ((p : ℝ) / q) :=
    (Real.rpow_pos_of_pos two_pos _).le
  rw [← pow_lt_pow_iff_left₀ hx hb.le hq, ← Real.rpow_natCast ((2 : ℝ) ^ ((p : ℝ) / q)) q,
    ← Real.rpow_mul (by norm_num : (0 : ℝ) ≤ 2),
    div_mul_cancel₀ (p : ℝ) (by exact_mod_cast hq : (q : ℝ) ≠ 0),
    Real.rpow_natCast]
  exact h

lemma lt_two_rpow_div (p q : ℕ) (b : ℝ) (hb : 0 ≤ b) (hq : q ≠ 0)
    (h : b ^ q < (2 : ℝ) ^ p) : b < (2 : ℝ) ^ ((p : ℝ) / q) := by
  have hx : (0 : ℝ) ≤ (2 : ℝ) ^ ((p : ℝ) / q) :=
    (Real.rpow_pos_of_pos two_pos _).le
  rw [← pow_lt_pow_iff_left₀ hb hx hq, ← Real.rpow_natCast ((2 : ℝ) ^ ((p : ℝ) / q)) q,
    ← Real.rpow_mul (by norm_num : (0 : ℝ) ≤ 2),
    div_mul_cancel₀ (p : ℝ) (by exact_mod_cast hq : (q : ℝ) ≠ 0),
    Real.rpow_natCast]
  exact h

/-- Upper bound for the cutoff mapping at control value `0.999`:
`2^(0.999·8.9456) < 500`. -/
lemma cutoff_pow_ub : fasterpow2f ((0.999 : ℝ) * 8.9456) < 500 := by
  have h1 : ((0.999 : ℝ) * 8.9456) ≤ (447 : ℝ) / 50 := by norm_num
  have h2 : (2 : ℝ) ^ ((447 : ℝ) / 50) < 500 :=
    two_rpow_div_lt 447 50 500 (by norm_num) (by norm_num) (by norm_num)
  calc fasterpow2f ((0.999 : ℝ) * 8.9456)
      = (2 : ℝ) ^ ((0.999 : ℝ) * 8.9456) := rfl
    _ ≤ (2 : ℝ) ^ ((447 : ℝ) / 50) :=
        Real.rpow_le_rpow_of_exponent_le one_le_two h1
    _ < 500 := h2

/-- Lower bound for the cutoff mapping at control value `0.999`:
`480 < 2^(0.999·8.9456)`. -/
lemma cutoff_pow_lb : (480 : ℝ) < fasterpow2f ((0.999 : ℝ) * 8.9456) := by
  have h1 : (893 : ℝ) / 100 ≤ (0.999 : ℝ) * 8.9456 := by norm_num
  have h2 : (480 : ℝ) < (2 : ℝ) ^ ((893 : ℝ) / 100) :=
    lt_two_rpow_div 893 100 480 (by norm_num) (by norm_num) (by norm_num)
  calc (480 : ℝ) < (2 : ℝ) ^ ((893 : ℝ) / 100) := h2
    _ ≤ (2 : ℝ) ^ ((0.999 : ℝ) * 8.9456) :=
        Real.rpow_le_rpow_of_exponent_le one_le_two h1
    _ = fasterpow2f ((0.999 : ℝ) * 8.9456) := rfl

/-- Bounds for the resonance mapping at control value `0.999`:
`15 < 2^(0.999·4) < 16`. -/
lemma resonance_pow_bounds :
    (15 : ℝ) < fasterpow2f ((0.999 : ℝ) * 4.0) ∧
    fasterpow2f ((0.999 : ℝ) * 4.0) < 16 := by
  constructor
  · have h1 : (399 : ℝ) / 100 ≤ (0.999 : ℝ) * 4.0 := by norm_num
    have h2 : (15 : ℝ) < (2 : ℝ) ^ ((399 : ℝ) / 100) :=
      lt_two_rpow_div 399 100 15 (by norm_num) (by norm_num) (by norm_num)
    calc (15 : ℝ) < (2 : ℝ) ^ ((399 : ℝ) / 100) := h2
      _ ≤ (2 : ℝ) ^ ((0.999 : ℝ) * 4.0) :=
          Real.rpow_le_rpow_of_exponent_le one_le_two h1
      _ = fasterpow2f ((0.999 : ℝ) * 4.0) := rfl
  · have h1 : ((0.999 : ℝ) * 4.0) < ((4 : ℕ) : ℝ) := by norm_num
    have h2 : (2 : ℝ) ^ (((4 : ℕ) : ℝ)) = 16 := by
      rw [Real.rpow_natCast]; norm_num
    calc fasterpow2f ((0.999 : ℝ) * 4.0)
        = (2 : ℝ) ^ ((0.999 : ℝ) * 4.0) := rfl
      _ < (2 : ℝ) ^ (((4 : ℕ) : ℝ)) :=
          Real.rpow_lt_rpow_of_exponent_lt one_lt_two h1
      _ = 16 := h2

lemma M_1_SQRT2_pos : 0 < M_1_SQRT2 := by
  unfold M_1_SQRT2
  have : (0 : ℝ) < Real.sqrt 2 := Real.sqrt_pos.mpr (by norm_num)
  positivity

/-- The resonance mapping at `0` is exactly the baseline, and at `0.999` it is
between 15 and 16 times the baseline. -/
lemma depthToQ_facts :
    depthToQ 0 = M_1_SQRT2 ∧
    15 * depthToQ 0 < depthToQ 0.999 ∧
    depthToQ 0.999 < 16 * depthToQ 0 := by
  have h0 : depthToQ 0 = M_1_SQRT2 := by
    unfold depthToQ fasterpow2f
    rw [show ((0 : ℝ) * 4.0) = 0 by ring, Real.rpow_zero, one_mul]
  obtain ⟨hlb, hub⟩ := resonance_pow_bounds
  have hpos := M_1_SQRT2_pos
  refine ⟨h0, ?_, ?_⟩
  · rw [h0]
    unfold depthToQ
    nlinarith [hlb, hpos]
  · rw [h0]
    unfold depthToQ
    nlinarith [hub, hpos]

lemma sqrt2_bounds : (1.4141 : ℝ) < Real.sqrt 2 ∧ Real.sqrt 2 < 1.4143 :=
  ⟨(Real.lt_sqrt (by norm_num)).mpr (by norm_num),
   (Real.sqrt_lt' (by norm_num)).mpr (by norm_num)⟩

/-! ### Claim theorems -/

/-- C1: one call of `process_so` on state `(z1, z2)` with coefficients
`(f0, f1, f2, b1, b2)` and input `x` returns `acc = f0*x + z1` and leaves the
registers at `z1' = f1*x + z2 - b1*acc` and `z2' = f2*x - b2*acc`; and during
a processing block the registers of each of the four instances are mutated by
nothing but the chain of `process_so` calls on that instance's own samples
(the final instances of `MODFX_PROCESS` are exactly the `runChannel` folds of
`process_so`). -/
theorem process_so_spec :
    (∀ (c : Coeffs) (z1 z2 x : ℝ),
      BiQuad.process_so ⟨c, z1, z2⟩ x =
        (c.f0 * x + z1,
         ⟨c, c.f1 * x + z2 - c.b1 * (c.f0 * x + z1),
             c.f2 * x - c.b2 * (c.f0 * x + z1)⟩)) ∧
    (∀ (s : EffectState) (mx sx : ℕ → ℝ) (n : ℕ),
      (MODFX_PROCESS s mx sx n).2.2.s_bq_l =
          (runChannel (updateCoeffs s).s_bq_l (evensOf mx n)).2 ∧
      (MODFX_PROCESS s mx sx n).2.2.s_bq_r =
          (runChannel (updateCoeffs s).s_bq_r (oddsOf mx n)).2 ∧
      (MODFX_PROCESS s mx sx n).2.2.s_bqs_l =
          (runChannel (updateCoeffs s).s_bqs_l (evensOf sx n)).2 ∧
      (MODFX_PROCESS s mx sx n).2.2.s_bqs_r =
          (runChannel (updateCoeffs s).s_bqs_r (oddsOf sx n)).2) :=
  ⟨fun _ _ _ _ => rfl, fun s mx sx n => MODFX_PROCESS_state s mx sx n⟩

/-- C2: the coefficient swap (the guarded block of `MODFX_PROCESS`) leaves the
delay registers `z1`, `z2` of every one of the four filter instances
bit-identical to their values before the swap, in both the dirty and the
clean case; only the `mCoeffs` fields (and the dirty flag) change. -/
theorem coeff_swap_preserves_registers (s : EffectState) :
    (updateCoeffs s).s_bq_l.z1 = s.s_bq_l.z1 ∧
    (updateCoeffs s).s_bq_l.z2 = s.s_bq_l.z2 ∧
    (updateCoeffs s).s_bq_r.z1 = s.s_bq_r.z1 ∧
    (updateCoeffs s).s_bq_r.z2 = s.s_bq_r.z2 ∧
    (updateCoeffs s).s_bqs_l.z1 = s.s_bqs_l.z1 ∧
    (updateCoeffs s).s_bqs_l.z2 = s.s_bqs_l.z2 ∧
    (updateCoeffs s).s_bqs_r.z1 = s.s_bqs_r.z1 ∧
    (updateCoeffs s).s_bqs_r.z2 = s.s_bqs_r.z2 :=
  updateCoeffs_registers s

/-- C3: when the dirty flag is set, the head of the block recomputes the
coefficients exactly once from the stored parameters — before any sample is
processed — assigns the identical result to all four instances and clears the
flag; and after the whole block all four instances still hold that same
bit-identical coefficient set. -/
theorem coeff_update_once_per_block (s : EffectState)
    (h : s.s_param_changed ≠ 0) :
    ((updateCoeffs s).s_bq_l.mCoeffs = setSOLP (fx_tanpif s.s_wc) s.s_q ∧
     (updateCoeffs s).s_bq_r.mCoeffs = setSOLP (fx_tanpif s.s_wc) s.s_q ∧
     (updateCoeffs s).s_bqs_l.mCoeffs = setSOLP (fx_tanpif s.s_wc) s.s_q ∧
     (updateCoeffs s).s_bqs_r.mCoeffs = setSOLP (fx_tanpif s.s_wc) s.s_q ∧
     (updateCoeffs s).s_param_changed = 0) ∧
    (∀ (mx sx : ℕ → ℝ) (n : ℕ),
      (MODFX_PROCESS s mx sx n).2.2.s_bq_l.mCoeffs =
          setSOLP (fx_tanpif s.s_wc) s.s_q ∧
      (MODFX_PROCESS s mx sx n).2.2.s_bq_r.mCoeffs =
          setSOLP (fx_tanpif s.s_wc) s.s_q ∧
      (MODFX_PROCESS s mx sx n).2.2.s_bqs_l.mCoeffs =
          setSOLP (fx_tanpif s.s_wc) s.s_q ∧
      (MODFX_PROCESS s mx sx n).2.2.s_bqs_r.mCoeffs =
          setSOLP (fx_tanpif s.s_wc) s.s_q) := by
  obtain ⟨h1, h2, h3, h4, h5⟩ := updateCoeffs_dirty s h
  refine ⟨⟨h1, h2, h3, h4, h5⟩, fun mx sx n => ?_⟩
  obtain ⟨e1, e2, e3, e4⟩ := MODFX_PROCESS_state s mx sx n
  refine ⟨?_, ?_, ?_, ?_⟩
  · rw [e1, runChannel_mCoeffs, h1]
  · rw [e2, runChannel_mCoeffs, h2]
  · rw [e3, runChannel_mCoeffs, h3]
  · rw [e4, runChannel_mCoeffs, h4]

/-- Witness for C3 at a concrete dirty state. -/
theorem coeff_update_once_per_block_witness :
    (updateCoeffs dirtyState).s_param_changed = 0 :=
  (coeff_update_once_per_block dirtyState (by decide)).1.2.2.2.2

/-- C7: for every coefficient set and every sample count `n`, an instance whose
registers have been reset to zero and which is then fed `x = 0` for `n`
consecutive `process_so` calls outputs `0` on every call, and its registers are
still `0` afterwards. -/
theorem zero_state_invariance (bq : BiQuad) (n : ℕ) :
    (runChannel bq.flush (List.replicate n 0)).1 = List.replicate n 0 ∧
    (runChannel bq.flush (List.replicate n 0)).2 = bq.flush := by
  have key : ∀ (m : ℕ) (c : Coeffs),
      runChannel ⟨c, 0, 0⟩ (List.replicate m 0) =
        (List.replicate m 0, ⟨c, 0, 0⟩) := by
    intro m
    induction m with
    | zero => intro c; rfl
    | succ m ih =>
      intro c
      have step : BiQuad.process_so ⟨c, 0, 0⟩ 0 = (0, ⟨c, 0, 0⟩) := by
        simp [BiQuad.process_so]
      simp [List.replicate_succ, runChannel, step, ih c]
  have hb : bq.flush = ⟨bq.mCoeffs, 0, 0⟩ := rfl
  rw [hb, key n bq.mCoeffs]
  exact ⟨rfl, rfl⟩

/-- C8: for every frame count and every pair of input streams, the block call
writes exactly `frames` interleaved stereo pairs (`2*frames` samples) to each
output, and each output is exactly the in-order interleaving of the left-
channel instance run over the even-indexed samples with the right-channel
instance run over the odd-indexed samples — no reordering, drop or duplicate. -/
theorem block_processes_in_order (s : EffectState) (mx sx : ℕ → ℝ)
    (frames : ℕ) :
    (MODFX_PROCESS s mx sx frames).1 =
      interleave (runChannel (updateCoeffs s).s_bq_l (evensOf mx frames)).1
        (runChannel (updateCoeffs s).s_bq_r (oddsOf mx frames)).1 ∧
    (MODFX_PROCESS s mx sx frames).2.1 =
      interleave (runChannel (updateCoeffs s).s_bqs_l (evensOf sx frames)).1
        (runChannel (updateCoeffs s).s_bqs_r (oddsOf sx frames)).1 ∧
    (MODFX_PROCESS s mx sx frames).1.length = 2 * frames ∧
    (MODFX_PROCESS s mx sx frames).2.1.length = 2 * frames := by
  have hm : (MODFX_PROCESS s mx sx frames).1 =
      interleave (runChannel (updateCoeffs s).s_bq_l (evensOf mx frames)).1
        (runChannel (updateCoeffs s).s_bq_r (oddsOf mx frames)).1 := by
    simp [runFrames_eq, MODFX_PROCESS]
  have hs : (MODFX_PROCESS s mx sx frames).2.1 =
      interleave (runChannel (updateCoeffs s).s_bqs_l (evensOf sx frames)).1
        (runChannel (updateCoeffs s).s_bqs_r (oddsOf sx frames)).1 := by
    simp [runFrames_eq, MODFX_PROCESS]
  refine ⟨hm, hs, ?_, ?_⟩
  · rw [hm, interleave_length]
    · rw [runChannel_length, runChannel_length, evensOf_length, oddsOf_length]
      omega
    · rw [runChannel_length, runChannel_length, evensOf_length, oddsOf_length]
  · rw [hs, interleave_length]
    · rw [runChannel_length, runChannel_length, evensOf_length, oddsOf_length]
      omega
    · rw [runChannel_length, runChannel_length, evensOf_length, oddsOf_length]

/-- C9: `MODFX_PARAM` on any index other than the time (cutoff) and depth
(resonance) indices returns without error and leaves the whole state — stored
cutoff, stored q, dirty flag and all four instances — unchanged. -/
theorem param_unknown_index_ignored (s : EffectState) (index : ℕ) (value : ℤ)
    (ht : index ≠ k_user_modfx_param_time)
    (hd : index ≠ k_user_modfx_param_depth) :
    MODFX_PARAM s index value = s := by
  simp [ht, hd, MODFX_PARAM]

/-- Witness for C9 at a concrete state, index and value. -/
theorem param_unknown_index_ignored_witness :
    MODFX_PARAM dirtyState 2 5 = dirtyState :=
  param_unknown_index_ignored dirtyState 2 5 (by decide) (by decide)

/-- C10: a block call with `frames = 0` writes nothing to either output and
leaves every delay register unchanged, but still consumes a pending parameter
change: the final state is exactly `updateCoeffs s`, so if the dirty flag was
set the coefficients are recomputed, assigned to all four instances, and the
flag is cleared even though no sample is processed. -/
theorem zero_frames_consumes_dirty_flag (s : EffectState) (mx sx : ℕ → ℝ) :
    (MODFX_PROCESS s mx sx 0).1 = [] ∧
    (MODFX_PROCESS s mx sx 0).2.1 = [] ∧
    (MODFX_PROCESS s mx sx 0).2.2 = updateCoeffs s ∧
    ((updateCoeffs s).s_bq_l.z1 = s.s_bq_l.z1 ∧
     (updateCoeffs s).s_bq_l.z2 = s.s_bq_l.z2 ∧
     (updateCoeffs s).s_bq_r.z1 = s.s_bq_r.z1 ∧
     (updateCoeffs s).s_bq_r.z2 = s.s_bq_r.z2 ∧
     (updateCoeffs s).s_bqs_l.z1 = s.s_bqs_l.z1 ∧
     (updateCoeffs s).s_bqs_l.z2 = s.s_bqs_l.z2 ∧
     (updateCoeffs s).s_bqs_r.z1 = s.s_bqs_r.z1 ∧
     (updateCoeffs s).s_bqs_r.z2 = s.s_bqs_r.z2) ∧
    (s.s_param_changed ≠ 0 →
      (updateCoeffs s).s_param_changed = 0 ∧
      (updateCoeffs s).s_bq_l.mCoeffs = setSOLP (fx_tanpif s.s_wc) s.s_q ∧
      (updateCoeffs s).s_bq_r.mCoeffs = setSOLP (fx_tanpif s.s_wc) s.s_q ∧
      (updateCoeffs s).s_bqs_l.mCoeffs = setSOLP (fx_tanpif s.s_wc) s.s_q ∧
      (updateCoeffs s).s_bqs_r.mCoeffs = setSOLP (fx_tanpif s.s_wc) s.s_q) := by
  refine ⟨rfl, rfl, rfl, updateCoeffs_registers s, fun h => ?_⟩
  obtain ⟨h1, h2, h3, h4, h5⟩ := updateCoeffs_dirty s h
  exact ⟨h5, h1, h2, h3, h4⟩

/-- Witness for C10 at a concrete dirty state and the all-zero streams. -/
theorem zero_frames_consumes_dirty_flag_witness :
    (MODFX_PROCESS dirtyState (fun _ => 0) (fun _ => 0) 0).1 = [] ∧
    (updateCoeffs dirtyState).s_param_changed = 0 := by
  obtain ⟨h1, _, _, _, h5⟩ :=
    zero_frames_consumes_dirty_flag dirtyState (fun _ => 0) (fun _ => 0)
  exact ⟨h1, (h5 (by decide)).1⟩

/-- C4: `MODFX_PARAM` on the time index stores exactly
`s_wc = 0.001 * 2^(valf * 8.9456)` (so the mapped frequency is
`0.001 * 48000 * 2^(valf * 8.9456)` Hz); the mapped frequency is monotonically
non-decreasing over the full `[0, 1)` control range, equals 48 Hz at value `0`,
and lies strictly between 23.0 kHz and 24.0 kHz (≈ 23.5 kHz) at value `0.999`. -/
theorem cutoff_mapping_spec :
    (∀ (s : EffectState) (v : ℤ),
      MODFX_PARAM s k_user_modfx_param_time v =
        { s with s_wc := timeToWc (q31_to_f32 v), s_param_changed := 1 }) ∧
    (∀ a b : ℝ, 0 ≤ a → a ≤ b → b < 1 →
      48000 * timeToWc a ≤ 48000 * timeToWc b) ∧
    48000 * timeToWc 0 = 48 ∧
    23000 < 48000 * timeToWc 0.999 ∧
    48000 * timeToWc 0.999 < 24000 := by
  refine ⟨fun s v => rfl, ?_, ?_, ?_, ?_⟩
  · intro a b _ hab _
    have h1 : a * 8.9456 ≤ b * 8.9456 := by nlinarith
    have h2 : fasterpow2f (a * 8.9456) ≤ fasterpow2f (b * 8.9456) :=
      Real.rpow_le_rpow_of_exponent_le one_le_two h1
    unfold timeToWc
    nlinarith [h2]
  · unfold timeToWc fasterpow2f
    rw [show ((0 : ℝ) * 8.9456) = 0 by ring, Real.rpow_zero]
    norm_num
  · have := cutoff_pow_lb
    unfold timeToWc
    nlinarith [this]
  · have := cutoff_pow_ub
    unfold timeToWc
    nlinarith [this]

/-- Witness for C4: the monotonicity conjunct instantiated at the concrete
control values `0` and `1/2`. -/
theorem cutoff_mapping_spec_witness :
    48000 * timeToWc 0 ≤ 48000 * timeToWc (1 / 2) :=
  cutoff_mapping_spec.2.1 0 (1 / 2) (by norm_num) (by norm_num) (by norm_num)

/-- C5 counterexample: the resonance mapping at control value `0.999` is more
than 15 times its value at `0` (in fact between 15 and 16 times), so it is not
approximately 10 times the baseline as the claim states. -/
theorem resonance_ratio_cex :
    15 * depthToQ 0 < depthToQ 0.999 ∧ depthToQ 0.999 < 16 * depthToQ 0 :=
  ⟨depthToQ_facts.2.1, depthToQ_facts.2.2⟩

/-- C5 (amended): `MODFX_PARAM` on the depth index stores exactly
`q = 2^(valf * 4) / √2`; the mapping is monotonically non-decreasing over
`[0, 1)`, satisfies `q(0) = 1/√2` (the no-resonance baseline), and satisfies
`15·q(0) < q(0.999) < 16·q(0)` — a ratio of `2^3.996 ≈ 15.96`, about 16 times
the baseline, not 10 times. -/
theorem resonance_mapping_spec :
    (∀ (s : EffectState) (v : ℤ),
      MODFX_PARAM s k_user_modfx_param_depth v =
        { s with s_q := depthToQ (q31_to_f32 v), s_param_changed := 1 }) ∧
    (∀ a b : ℝ, 0 ≤ a → a ≤ b → b < 1 → depthToQ a ≤ depthToQ b) ∧
    depthToQ 0 = M_1_SQRT2 ∧
    15 * depthToQ 0 < depthToQ 0.999 ∧
    depthToQ 0.999 < 16 * depthToQ 0 := by
  refine ⟨?_, ?_, depthToQ_facts.1, depthToQ_facts.2.1, depthToQ_facts.2.2⟩
  · intro s v
    simp [k_user_modfx_param_time, k_user_modfx_param_depth, MODFX_PARAM]
  · intro a b _ hab _
    have h1 : a * 4.0 ≤ b * 4.0 := by nlinarith
    have h2 : fasterpow2f (a * 4.0) ≤ fasterpow2f (b * 4.0) :=
      Real.rpow_le_rpow_of_exponent_le one_le_two h1
    have hpos := M_1_SQRT2_pos
    unfold depthToQ
    nlinarith [h2, hpos]

/-- Witness for C5 (amended): the monotonicity conjunct instantiated at the
concrete control values `0` and `1/2`. -/
theorem resonance_mapping_spec_witness : depthToQ 0 ≤ depthToQ (1 / 2) :=
  resonance_mapping_spec.2.1 0 (1 / 2) (by norm_num) (by norm_num) (by norm_num)

/-- C6 counterexample: the default Q established by `MODFX_INIT` is `1.4142`,
which is not the no-resonance baseline `1/√2 ≈ 0.7071` the claim states. -/
theorem init_default_q_cex : (MODFX_INIT dirtyState).s_q ≠ M_1_SQRT2 := by
  have h1 : (MODFX_INIT dirtyState).s_q = 1.4142 := rfl
  have h2 : (1 : ℝ) < Real.sqrt 2 := (Real.lt_sqrt (by norm_num)).mpr (by norm_num)
  have h3 : M_1_SQRT2 < 1 := by
    unfold M_1_SQRT2
    rw [div_lt_one (lt_trans zero_lt_one h2)]
    exact h2
  rw [h1]
  intro hEq
  rw [← hEq] at h3
  norm_num at h3

/-- C6 (amended): `MODFX_INIT` establishes the default cutoff parameter `0.49`
of the tangent-domain range and the default Q `1.4142` — which is `√2` to
within `0.0001`, i.e. twice the no-resonance baseline `1/√2`, not the baseline
itself — zeroes the delay registers of all four instances, clears the dirty
flag, and assigns the one identical freshly computed coefficient set to all
four instances. -/
theorem init_defaults (s : EffectState) :
    (MODFX_INIT s).s_wc = 0.49 ∧
    (MODFX_INIT s).s_q = 1.4142 ∧
    |(MODFX_INIT s).s_q - Real.sqrt 2| < 0.0001 ∧
    (MODFX_INIT s).s_param_changed = 0 ∧
    (MODFX_INIT s).s_bq_l = ⟨setSOLP (fx_tanpif 0.49) 1.4142, 0, 0⟩ ∧
    (MODFX_INIT s).s_bq_r = ⟨setSOLP (fx_tanpif 0.49) 1.4142, 0, 0⟩ ∧
    (MODFX_INIT s).s_bqs_l = ⟨setSOLP (fx_tanpif 0.49) 1.4142, 0, 0⟩ ∧
    (MODFX_INIT s).s_bqs_r = ⟨setSOLP (fx_tanpif 0.49) 1.4142, 0, 0⟩ := by
  obtain ⟨hlo, hhi⟩ := sqrt2_bounds
  refine ⟨rfl, rfl, ?_, rfl, rfl, rfl, rfl, rfl⟩
  have hq : (MODFX_INIT s).s_q = 1.4142 := rfl
  rw [hq, abs_lt]
  constructor <;> linarith

end TwopoleLowpass
